import Mathlib

/-!
Verification of the Synth-Head framed serial protocol.

The definitions below are shallow embeddings of the Python protocol code in
`Software/Testing_N_Experimentation/Alpha_Release_Stack/include/GpuDriver/tests/`:

* the short-form `UartPacket` codec of `run_hardware_tests.py` /
  `run_extended_tests.py` (2-byte magic, XOR checksum), and
* the extended-form packet builder and receiver of `run_hardware_tests_v2.py`
  (3-byte sync, a header packed with `struct.pack('<BBBHHHBB', ...)`, a
  16-bit additive checksum, and a trailing end byte).

Byte buffers are modelled as `List Nat`; byte-valuedness (`< 256`) is carried
as explicit hypotheses where it matters.  Fallible operations (Python
`raise` / `struct.error` / returning `None`) are modelled with `Except` and
`Option`.
-/

namespace SynthHead

/-- Error cases raised by `UartPacket.decode` (the four `ValueError`s of the
Python code, in source order). -/
inductive ShortDecodeError where
  | packetTooShort
  | badMagic
  | incompletePacket
  | checksumMismatch
deriving DecidableEq, Repr

/-- Error raised by `UartPacket.encode` when the payload exceeds `MAX_PAYLOAD`. -/
inductive ShortEncodeError where
  | payloadTooLarge
deriving DecidableEq, Repr

/-- XOR fold used by the short-form checksum: Python's
`crc = init; for b in data: crc ^= b`. -/
def xorFold (init : Nat) (data : List Nat) : Nat :=
  data.foldl (fun a b => a ^^^ b) init

namespace UartPacket

/-- `UartPacket.MAGIC = bytes([0xAA, 0x55])`. -/
def MAGIC : List Nat := [0xAA, 0x55]

/-- `UartPacket.MAX_PAYLOAD = 255`. -/
def MAX_PAYLOAD : Nat := 255

/-- `UartPacket.encode(cmd, payload)`: raises when the payload is too large,
otherwise emits magic, cmd, length, payload and the masked XOR checksum. -/
def encode (cmd : Nat) (payload : List Nat) : Except ShortEncodeError (List Nat) :=
  if payload.length > MAX_PAYLOAD then .error .payloadTooLarge
  else .ok (MAGIC ++ [cmd, payload.length] ++ payload ++
    [xorFold (cmd ^^^ payload.length) payload % 256])

/-- `UartPacket.decode(data)`: the length, magic, completeness and checksum
checks in the order the Python code performs them, returning `(cmd, payload)`
on success. -/
def decode (data : List Nat) : Except ShortDecodeError (Nat × List Nat) :=
  if data.length < 5 then .error .packetTooShort
  else if data.take 2 ≠ MAGIC then .error .badMagic
  else if data.length < 4 + data.getD 3 0 + 1 then .error .incompletePacket
  else if data.getD (4 + data.getD 3 0) 0 ≠
      xorFold (data.getD 2 0 ^^^ data.getD 3 0) ((data.drop 4).take (data.getD 3 0)) % 256 then
    .error .checksumMismatch
  else .ok (data.getD 2 0, (data.drop 4).take (data.getD 3 0))

end UartPacket

/-- Reading the element just after a prefix of known length. -/
theorem getD_append_length (l : List Nat) (x : Nat) (t : List Nat) :
    (l ++ x :: t).getD l.length 0 = x := by
  induction l with
  | nil => rfl
  | cons a l ih => simpa using ih

/-- A well-formed short-form packet, possibly followed by extra trailing
bytes, decodes to the command and payload it carries. -/
theorem decode_enc_trail (cmd : Nat) (payload rest : List Nat) :
    UartPacket.decode (0xAA :: 0x55 :: cmd :: payload.length ::
        (payload ++ (xorFold (cmd ^^^ payload.length) payload % 256) :: rest)) =
      .ok (cmd, payload) := by
  have hlen : (0xAA :: 0x55 :: cmd :: payload.length ::
      (payload ++ (xorFold (cmd ^^^ payload.length) payload % 256) :: rest)).length
      = payload.length + 5 + rest.length := by
    simp
    omega
  have hslice : ((0xAA :: 0x55 :: cmd :: payload.length ::
      (payload ++ (xorFold (cmd ^^^ payload.length) payload % 256) :: rest)).drop 4).take
        payload.length = payload := by
    simp [List.take_append_eq_append_take]
  have hcrc : (0xAA :: 0x55 :: cmd :: payload.length ::
      (payload ++ (xorFold (cmd ^^^ payload.length) payload % 256) :: rest)).getD
        (4 + payload.length) 0 = xorFold (cmd ^^^ payload.length) payload % 256 := by
    have h4 : 4 + payload.length = payload.length + 4 := by omega
    rw [h4]
    simpa using getD_append_length payload _ rest
  unfold UartPacket.decode
  rw [hlen]
  rw [if_neg (by omega)]
  rw [if_neg (by simp [UartPacket.MAGIC])]
  simp only [List.getD_cons_succ, List.getD_cons_zero]
  rw [if_neg (by omega)]
  rw [hslice, hcrc]
  simp

/-- The encoded short-form packet decodes back to the command and payload it
was built from. -/
theorem decode_encBytes (cmd : Nat) (payload : List Nat) :
    UartPacket.decode (0xAA :: 0x55 :: cmd :: payload.length ::
        (payload ++ [xorFold (cmd ^^^ payload.length) payload % 256])) =
      .ok (cmd, payload) :=
  decode_enc_trail cmd payload []

/-- C1: Short-form round-trip law: for every command byte `cmd` in 0..255 and
every payload of byte values with length at most 255, `encode` succeeds and
`decode` of the encoded bytes returns exactly `(cmd, payload)`. -/
theorem C1_short_roundtrip (cmd : Nat) (payload : List Nat)
    (hcmd : cmd < 256) (hbytes : ∀ b ∈ payload, b < 256)
    (hlen : payload.length ≤ 255) :
    ∃ pkt, UartPacket.encode cmd payload = .ok pkt ∧
      UartPacket.decode pkt = .ok (cmd, payload) := by
  refine ⟨0xAA :: 0x55 :: cmd :: payload.length ::
      (payload ++ [xorFold (cmd ^^^ payload.length) payload % 256]), ?_, ?_⟩
  · unfold UartPacket.encode
    rw [if_neg (by unfold UartPacket.MAX_PAYLOAD; omega)]
    simp [UartPacket.MAGIC]
  · exact decode_encBytes cmd payload

/-- Concrete instantiation of the C1 round-trip law. -/
theorem C1_short_roundtrip_witness :
    ∃ pkt, UartPacket.encode 0x12 [0x01, 0x02, 0x03] = .ok pkt ∧
      UartPacket.decode pkt = .ok (0x12, [0x01, 0x02, 0x03]) :=
  C1_short_roundtrip 0x12 [0x01, 0x02, 0x03] (by decide) (by decide) (by decide)

/-- The XOR fold of byte values starting from a byte value stays below 256. -/
theorem xorFold_lt (init : Nat) (data : List Nat) (hinit : init < 256)
    (hdata : ∀ b ∈ data, b < 256) : xorFold init data < 256 := by
  induction data generalizing init with
  | nil => simpa [xorFold] using hinit
  | cons a l ih =>
      have ha : a < 256 := hdata a (by simp)
      have : init ^^^ a < 256 := by
        have := Nat.xor_lt_two_pow (n := 8) (by simpa using hinit) (by simpa using ha)
        simpa using this
      have := ih (init ^^^ a) this (fun b hb => hdata b (by simp [hb]))
      simpa [xorFold] using this

/-- C2: Short-form encode emits the exact layout
`[0xAA][0x55][cmd][len][payload][checksum]` with the checksum byte equal to
the XOR of cmd, len and all payload bytes; in particular the NOP and CLEAR
examples produce `AA 55 00 00 00` and `AA 55 10 00 10`. -/
theorem C2_short_encode_layout (cmd : Nat) (payload : List Nat)
    (hcmd : cmd < 256) (hbytes : ∀ b ∈ payload, b < 256)
    (hlen : payload.length ≤ 255) :
    UartPacket.encode cmd payload =
      .ok ([0xAA, 0x55, cmd, payload.length] ++ payload ++
        [xorFold (cmd ^^^ payload.length) payload]) ∧
    UartPacket.encode 0x00 [] = .ok [0xAA, 0x55, 0x00, 0x00, 0x00] ∧
    UartPacket.encode 0x10 [] = .ok [0xAA, 0x55, 0x10, 0x00, 0x10] := by
  refine ⟨?_, by rfl, by rfl⟩
  have hinit : cmd ^^^ payload.length < 256 := by
    have := Nat.xor_lt_two_pow (n := 8) (by simpa using hcmd)
      (by simpa using (by omega : payload.length < 256))
    simpa using this
  have hfold : xorFold (cmd ^^^ payload.length) payload < 256 :=
    xorFold_lt _ _ hinit hbytes
  unfold UartPacket.encode
  rw [if_neg (by unfold UartPacket.MAX_PAYLOAD; omega)]
  simp [UartPacket.MAGIC, Nat.mod_eq_of_lt hfold]

/-- Concrete instantiation of the C2 layout law. -/
theorem C2_short_encode_layout_witness :
    UartPacket.encode 0x07 [0x01, 0x02] =
      .ok ([0xAA, 0x55, 0x07, List.length [0x01, 0x02]] ++ [0x01, 0x02] ++
        [xorFold (0x07 ^^^ List.length [0x01, 0x02]) [0x01, 0x02]]) ∧
    UartPacket.encode 0x00 [] = .ok [0xAA, 0x55, 0x00, 0x00, 0x00] ∧
    UartPacket.encode 0x10 [] = .ok [0xAA, 0x55, 0x10, 0x00, 0x10] :=
  C2_short_encode_layout 0x07 [0x01, 0x02] (by decide) (by decide) (by decide)

/-- C4: Short-form decode error taxonomy: `decode` fails with
`packetTooShort` exactly on buffers of fewer than 5 bytes, with `badMagic`
exactly when the buffer is long enough but the two leading bytes differ from
`AA 55`, with `incompletePacket` exactly when the declared payload length
exceeds the available trailing bytes, with `checksumMismatch` exactly when the
recomputed XOR checksum differs from the transmitted byte, and returns
`(cmd, payload)` in all remaining cases. -/
theorem C4_short_decode_taxonomy (b : List Nat) :
    (UartPacket.decode b = .error .packetTooShort ↔ b.length < 5) ∧
    (UartPacket.decode b = .error .badMagic ↔
      ¬ b.length < 5 ∧ b.take 2 ≠ UartPacket.MAGIC) ∧
    (UartPacket.decode b = .error .incompletePacket ↔
      ¬ b.length < 5 ∧ b.take 2 = UartPacket.MAGIC ∧
        b.length < 4 + b.getD 3 0 + 1) ∧
    (UartPacket.decode b = .error .checksumMismatch ↔
      ¬ b.length < 5 ∧ b.take 2 = UartPacket.MAGIC ∧
        ¬ b.length < 4 + b.getD 3 0 + 1 ∧
        b.getD (4 + b.getD 3 0) 0 ≠
          xorFold (b.getD 2 0 ^^^ b.getD 3 0) ((b.drop 4).take (b.getD 3 0)) % 256) ∧
    (UartPacket.decode b = .ok (b.getD 2 0, (b.drop 4).take (b.getD 3 0)) ↔
      ¬ b.length < 5 ∧ b.take 2 = UartPacket.MAGIC ∧
        ¬ b.length < 4 + b.getD 3 0 + 1 ∧
        b.getD (4 + b.getD 3 0) 0 =
          xorFold (b.getD 2 0 ^^^ b.getD 3 0) ((b.drop 4).take (b.getD 3 0)) % 256) := by
  unfold UartPacket.decode
  split_ifs with h1 h2 h3 h4 <;> simp_all

/-- Every buffer that decodes successfully is, up to trailing junk, exactly an
encoded packet: magic, command, length, payload and matching checksum byte. -/
theorem decode_ok_shape (b : List Nat) (cmd : Nat) (payload : List Nat)
    (h : UartPacket.decode b = .ok (cmd, payload)) :
    ∃ rest, b = 0xAA :: 0x55 :: cmd :: payload.length ::
      (payload ++ (xorFold (cmd ^^^ payload.length) payload % 256) :: rest) := by
  rcases b with _ | ⟨x0, b⟩
  · exact absurd h (by simp [UartPacket.decode])
  rcases b with _ | ⟨x1, b⟩
  · exact absurd h (by simp [UartPacket.decode])
  rcases b with _ | ⟨x2, b⟩
  · exact absurd h (by simp [UartPacket.decode])
  rcases b with _ | ⟨x3, tail⟩
  · exact absurd h (by simp [UartPacket.decode])
  unfold UartPacket.decode at h
  simp only [List.getD_cons_succ, List.getD_cons_zero, List.length_cons,
    List.drop_succ_cons, List.drop_zero, List.take_succ_cons] at h
  split_ifs at h with h1 h2 h3 h4
  simp only [Except.ok.injEq, Prod.mk.injEq] at h
  obtain ⟨hcmd, hpayload⟩ := h
  subst hcmd
  have htail : x3 + 1 ≤ tail.length := by omega
  have hplen : payload.length = x3 := by
    rw [← hpayload]
    simp
    omega
  rw [not_ne_iff] at h2
  simp only [List.take, UartPacket.MAGIC, List.cons.injEq, and_true] at h2
  obtain ⟨hx0, hx1⟩ := h2
  have hlt : 0 < (tail.drop x3).length := by
    simp
    omega
  rcases hrest : tail.drop x3 with _ | ⟨y, ys⟩
  · rw [hrest] at hlt
    simp at hlt
  have hdec : tail = payload ++ y :: ys := by
    conv_lhs => rw [← List.take_append_drop x3 tail]
    rw [hpayload, hrest]
  have hy : y = xorFold (x2 ^^^ payload.length) payload % 256 := by
    have hrec := not_ne_iff.mp h4
    have hidx : (4 + x3) = x3 + 4 := by omega
    rw [hidx] at hrec
    simp only [List.getD_cons_succ] at hrec
    have hgy : tail.getD x3 0 = y := by
      rw [hdec, ← hplen]
      exact getD_append_length payload y ys
    rw [hgy, hpayload, ← hplen] at hrec
    exact hrec
  refine ⟨ys, ?_⟩
  rw [hx0, hx1, hdec, hy, hplen]

/-- C10: Short-form decode only reads a prefix of its input: appending any
junk bytes to a buffer that decodes successfully leaves the result
unchanged. -/
theorem C10_decode_ignores_trailing_junk (pkt junk : List Nat) (cmd : Nat)
    (payload : List Nat) (h : UartPacket.decode pkt = .ok (cmd, payload)) :
    UartPacket.decode (pkt ++ junk) = .ok (cmd, payload) := by
  obtain ⟨rest, hrest⟩ := decode_ok_shape pkt cmd payload h
  subst hrest
  have : (0xAA :: 0x55 :: cmd :: payload.length ::
      (payload ++ (xorFold (cmd ^^^ payload.length) payload % 256) :: rest)) ++ junk
      = 0xAA :: 0x55 :: cmd :: payload.length ::
        (payload ++ (xorFold (cmd ^^^ payload.length) payload % 256) :: (rest ++ junk)) := by
    simp
  rw [this]
  exact decode_enc_trail cmd payload (rest ++ junk)

/-- Concrete instantiation of the C10 prefix law. -/
theorem C10_decode_ignores_trailing_junk_witness :
    UartPacket.decode ([0xAA, 0x55, 0x01, 0x01, 0x07, 0x07] ++ [0xFF, 0x00]) =
      .ok (0x01, [0x07]) :=
  C10_decode_ignores_trailing_junk [0xAA, 0x55, 0x01, 0x01, 0x07, 0x07] [0xFF, 0x00]
    0x01 [0x07] (by rfl)

/-- Flip bit `j` of the byte at position `k` of a buffer. -/
def flipBit (data : List Nat) (k j : Nat) : List Nat :=
  data.set k (data.getD k 0 ^^^ 2 ^ j)

/-- XORing a nonzero value changes a number. -/
theorem xor_ne_self (x c : Nat) (hc : c ≠ 0) : x ^^^ c ≠ x := by
  intro h
  have h2 : x ^^^ (x ^^^ c) = x ^^^ x := by rw [h]
  rw [← Nat.xor_assoc, Nat.xor_self, Nat.zero_xor] at h2
  exact hc h2

/-- Truncation to `2 ^ n` commutes with XOR. -/
theorem xor_mod_two_pow (a b n : Nat) :
    (a ^^^ b) % 2 ^ n = a % 2 ^ n ^^^ b % 2 ^ n := by
  apply Nat.eq_of_testBit_eq
  intro i
  simp only [Nat.testBit_mod_two_pow, Nat.testBit_xor]
  by_cases h : i < n <;> simp [h]

/-- Flipping a low bit changes a byte-truncated value. -/
theorem mod256_xor_two_pow_ne (E j : Nat) (hj : j < 8) :
    (E ^^^ 2 ^ j) % 256 ≠ E % 256 := by
  rw [show (256 : Nat) = 2 ^ 8 from rfl, xor_mod_two_pow]
  have hpow : 2 ^ j % 2 ^ 8 = 2 ^ j :=
    Nat.mod_eq_of_lt (Nat.pow_lt_pow_right (by omega) hj)
  rw [hpow]
  exact xor_ne_self _ _ (Nat.pos_iff_ne_zero.mp (Nat.pos_pow_of_pos j (by omega)))

/-- XOR folding distributes over an XOR added to the accumulator. -/
theorem xorFold_init_xor (a c : Nat) (l : List Nat) :
    xorFold (a ^^^ c) l = xorFold a l ^^^ c := by
  induction l generalizing a with
  | nil => simp [xorFold]
  | cons b t ih =>
      show xorFold ((a ^^^ c) ^^^ b) t = xorFold (a ^^^ b) t ^^^ c
      rw [Nat.xor_assoc, Nat.xor_comm c b, ← Nat.xor_assoc]
      exact ih (a ^^^ b)

/-- XOR-flipping one element of the list XOR-flips the fold. -/
theorem xorFold_set (a c : Nat) (l : List Nat) (i : Nat) (hi : i < l.length) :
    xorFold a (l.set i (l.getD i 0 ^^^ c)) = xorFold a l ^^^ c := by
  induction l generalizing a i with
  | nil => simp at hi
  | cons b t ih =>
      cases i with
      | zero =>
          show xorFold (a ^^^ (b ^^^ c)) t = xorFold (a ^^^ b) t ^^^ c
          rw [← Nat.xor_assoc]
          exact xorFold_init_xor (a ^^^ b) c t
      | succ i =>
          show xorFold (a ^^^ b) (t.set i (t.getD i 0 ^^^ c)) = xorFold (a ^^^ b) t ^^^ c
          exact ih (a ^^^ b) i (by simpa using hi)

/-- Reading inside the left part of an append. -/
theorem getD_append_left_of_lt (l1 l2 : List Nat) (i : Nat) (h : i < l1.length) :
    (l1 ++ l2).getD i 0 = l1.getD i 0 := by
  rw [List.getD_eq_getElem?_getD, List.getD_eq_getElem?_getD,
    List.getElem?_append_left h]

/-- C9 counterexample: `AA 55 00 00 00` decodes successfully, yet flipping
bit 0 of its length byte makes decode fail with `incompletePacket`, not
`checksumMismatch`, and the corrupted buffer does not satisfy the checksum
either: single-bit corruption is not always reported as a checksum
mismatch. -/
theorem C9_counterexample :
    UartPacket.decode [0xAA, 0x55, 0x00, 0x00, 0x00] = .ok (0x00, []) ∧
    flipBit [0xAA, 0x55, 0x00, 0x00, 0x00] 3 0 = [0xAA, 0x55, 0x00, 0x01, 0x00] ∧
    UartPacket.decode (flipBit [0xAA, 0x55, 0x00, 0x00, 0x00] 3 0) =
      .error .incompletePacket := by
  refine ⟨by rfl, by rfl, by rfl⟩

/-- C9 (amended): for every buffer that decodes successfully, flipping any
single bit of the command byte, of any payload byte, or of the checksum byte
makes decode fail with `checksumMismatch`; flipping any single bit of the two
magic bytes makes it fail with `badMagic`.  (Flips of the length byte or of
trailing junk bytes are not always detected.) -/
theorem C9_single_bit_corruption (b : List Nat) (cmd : Nat) (payload : List Nat)
    (h : UartPacket.decode b = .ok (cmd, payload)) (j : Nat) (hj : j < 8) :
    (∀ k, k < 2 → UartPacket.decode (flipBit b k j) = .error .badMagic) ∧
    (∀ k, k = 2 ∨ (4 ≤ k ∧ k ≤ 4 + b.getD 3 0) →
      UartPacket.decode (flipBit b k j) = .error .checksumMismatch) := by
  obtain ⟨rest, hb⟩ := decode_ok_shape b cmd payload h
  subst hb
  have hpow : (2 : Nat) ^ j ≠ 0 := Nat.pos_iff_ne_zero.mp (Nat.pos_pow_of_pos j (by omega))
  constructor
  · intro k hk
    interval_cases k
    · show UartPacket.decode ((0xAA ^^^ 2 ^ j) :: 0x55 :: cmd :: payload.length ::
        (payload ++ xorFold (cmd ^^^ payload.length) payload % 256 :: rest)) =
          .error .badMagic
      unfold UartPacket.decode
      rw [if_neg (by simp; omega)]
      rw [if_pos (by simp [UartPacket.MAGIC]; exact xor_ne_self _ _ hpow)]
    · show UartPacket.decode (0xAA :: (0x55 ^^^ 2 ^ j) :: cmd :: payload.length ::
        (payload ++ xorFold (cmd ^^^ payload.length) payload % 256 :: rest)) =
          .error .badMagic
      unfold UartPacket.decode
      rw [if_neg (by simp; omega)]
      rw [if_pos (by simp [UartPacket.MAGIC]; exact xor_ne_self _ _ hpow)]
  · intro k hk
    have hget3 : (0xAA :: 0x55 :: cmd :: payload.length ::
        (payload ++ xorFold (cmd ^^^ payload.length) payload % 256 :: rest)).getD 3 0 =
        payload.length := rfl
    rw [hget3] at hk
    rcases hk with rfl | ⟨hk4, hkle⟩
    · -- command byte
      show UartPacket.decode (0xAA :: 0x55 :: (cmd ^^^ 2 ^ j) :: payload.length ::
        (payload ++ xorFold (cmd ^^^ payload.length) payload % 256 :: rest)) =
          .error .checksumMismatch
      unfold UartPacket.decode
      rw [if_neg (by simp; omega)]
      rw [if_neg (by simp [UartPacket.MAGIC])]
      simp only [List.getD_cons_succ, List.getD_cons_zero]
      rw [if_neg (by simp; omega)]
      rw [if_pos ?_]
      have hslice : ((0xAA :: 0x55 :: (cmd ^^^ 2 ^ j) :: payload.length ::
          (payload ++ xorFold (cmd ^^^ payload.length) payload % 256 :: rest)).drop 4).take
            payload.length = payload := by
        simp [List.take_append_eq_append_take]
      have hcrc : (0xAA :: 0x55 :: (cmd ^^^ 2 ^ j) :: payload.length ::
          (payload ++ xorFold (cmd ^^^ payload.length) payload % 256 :: rest)).getD
            (4 + payload.length) 0 =
          xorFold (cmd ^^^ payload.length) payload % 256 := by
        have h4 : 4 + payload.length = payload.length + 4 := by omega
        rw [h4]
        simpa using getD_append_length payload _ rest
      rw [hslice, hcrc]
      have hx : (cmd ^^^ 2 ^ j) ^^^ payload.length =
          (cmd ^^^ payload.length) ^^^ 2 ^ j := by
        rw [Nat.xor_assoc, Nat.xor_comm (2 ^ j) payload.length, ← Nat.xor_assoc]
      rw [hx, xorFold_init_xor (cmd ^^^ payload.length) (2 ^ j) payload]
      exact Ne.symm (mod256_xor_two_pow_ne _ j hj)
    · -- payload or checksum byte
      set crc := xorFold (cmd ^^^ payload.length) payload % 256 with hcrcdef
      obtain ⟨i, rfl⟩ : ∃ i, k = i + 4 := ⟨k - 4, by omega⟩
      have hile : i ≤ payload.length := by omega
      have hsetform : flipBit (0xAA :: 0x55 :: cmd :: payload.length ::
          (payload ++ crc :: rest)) (i + 4) j =
          0xAA :: 0x55 :: cmd :: payload.length ::
            ((payload ++ crc :: rest).set i
              ((payload ++ crc :: rest).getD i 0 ^^^ 2 ^ j)) := by
        rw [flipBit]
        rfl
      rw [hsetform]
      rcases Nat.lt_or_ge i payload.length with hlt | hge
      · -- inside the payload
        have hgd : (payload ++ crc :: rest).getD i 0 = payload.getD i 0 :=
          getD_append_left_of_lt payload (crc :: rest) i hlt
        have hset : (payload ++ crc :: rest).set i (payload.getD i 0 ^^^ 2 ^ j) =
            payload.set i (payload.getD i 0 ^^^ 2 ^ j) ++ crc :: rest :=
          List.set_append_left i _ hlt
        rw [hgd, hset]
        have hsetlen : (payload.set i (payload.getD i 0 ^^^ 2 ^ j)).length =
            payload.length := List.length_set payload i _
        unfold UartPacket.decode
        rw [if_neg (by simp; omega)]
        rw [if_neg (by simp [UartPacket.MAGIC])]
        simp only [List.getD_cons_succ, List.getD_cons_zero]
        rw [if_neg (by simp [hsetlen]; omega)]
        rw [if_pos ?_]
        have hslice : ((0xAA :: 0x55 :: cmd :: payload.length ::
            (payload.set i (payload.getD i 0 ^^^ 2 ^ j) ++ crc :: rest)).drop 4).take
              payload.length = payload.set i (payload.getD i 0 ^^^ 2 ^ j) := by
          simp only [List.drop_succ_cons, List.drop_zero]
          rw [List.take_left' hsetlen]
        have hcrcpos : (0xAA :: 0x55 :: cmd :: payload.length ::
            (payload.set i (payload.getD i 0 ^^^ 2 ^ j) ++ crc :: rest)).getD
              (4 + payload.length) 0 = crc := by
          have h4 : 4 + payload.length = payload.length + 4 := by omega
          rw [h4]
          simp only [List.getD_cons_succ]
          rw [← hsetlen]
          exact getD_append_length _ _ _
        rw [hslice, hcrcpos]
        rw [xorFold_set (cmd ^^^ payload.length) (2 ^ j) payload i hlt]
        rw [hcrcdef]
        exact Ne.symm (mod256_xor_two_pow_ne _ j hj)
      · -- the checksum byte itself
        have hieq : i = payload.length := by omega
        subst hieq
        have hgd : (payload ++ crc :: rest).getD payload.length 0 = crc :=
          getD_append_length payload crc rest
        have hset : (payload ++ crc :: rest).set payload.length (crc ^^^ 2 ^ j) =
            payload ++ (crc ^^^ 2 ^ j) :: rest := by
          rw [List.set_append_right _ _ (Nat.le_refl _)]
          simp
        rw [hgd, hset]
        unfold UartPacket.decode
        rw [if_neg (by simp; omega)]
        rw [if_neg (by simp [UartPacket.MAGIC])]
        simp only [List.getD_cons_succ, List.getD_cons_zero]
        rw [if_neg (by simp; omega)]
        rw [if_pos ?_]
        have hslice : ((0xAA :: 0x55 :: cmd :: payload.length ::
            (payload ++ (crc ^^^ 2 ^ j) :: rest)).drop 4).take
              payload.length = payload := by
          simp [List.take_append_eq_append_take]
        have hcrcpos : (0xAA :: 0x55 :: cmd :: payload.length ::
            (payload ++ (crc ^^^ 2 ^ j) :: rest)).getD (4 + payload.length) 0 =
            crc ^^^ 2 ^ j := by
          have h4 : 4 + payload.length = payload.length + 4 := by omega
          rw [h4]
          simpa using getD_append_length payload _ rest
        rw [hslice, hcrcpos, hcrcdef]
        exact xor_ne_self _ _ hpow

/-- Concrete instantiation of the amended C9 statement. -/
theorem C9_single_bit_corruption_witness :
    UartPacket.decode (flipBit [0xAA, 0x55, 0x01, 0x01, 0x07, 0x07] 2 0) =
      .error .checksumMismatch :=
  ((C9_single_bit_corruption [0xAA, 0x55, 0x01, 0x01, 0x07, 0x07] 0x01 [0x07]
    (by rfl) 0 (by omega)).2 2 (Or.inl rfl))
/-! Extended-form protocol of `run_hardware_tests_v2.py`: 3-byte sync,
a header packed with `struct.pack('<BBBHHHBB', ...)`, a 16-bit additive
checksum and a trailing end byte.  Note a quirk of the source embedded here
faithfully: `'<BBBHHHBB'` packs `msg_type` as a two-byte field, so `pack`
emits an 11-byte header although `PacketHeader.SIZE` is 10, and `unpack`,
which slices 10 bytes for that 11-byte format, unconditionally raises
`struct.error`. -/

namespace Extended

/-- Protocol constant `SYNC_BYTE_1 = 0xAA`. -/
def SYNC_BYTE_1 : Nat := 0xAA

/-- Protocol constant `SYNC_BYTE_2 = 0x55`. -/
def SYNC_BYTE_2 : Nat := 0x55

/-- Protocol constant `SYNC_BYTE_3 = 0xCC`. -/
def SYNC_BYTE_3 : Nat := 0xCC

/-- Protocol constant `END_BYTE = 0x55`. -/
def END_BYTE : Nat := 0x55

/-- `HUB75_RGB_SIZE = 128 * 32 * 3 = 12288`. -/
def HUB75_RGB_SIZE : Nat := 12288

/-- `OLED_MONO_SIZE = 128 * 128 / 8 = 2048`. -/
def OLED_MONO_SIZE : Nat := 2048

/-- `FRAGMENT_SIZE = 1024`. -/
def FRAGMENT_SIZE : Nat := 1024

/-- `HUB75_FRAGMENT_COUNT = 12`. -/
def HUB75_FRAGMENT_COUNT : Nat := 12

/-- `OLED_FRAGMENT_COUNT = 2`. -/
def OLED_FRAGMENT_COUNT : Nat := 2

namespace MsgType

/-- `MsgType.PING = 0x01`. -/
def PING : Nat := 0x01

/-- `MsgType.PONG = 0x02`. -/
def PONG : Nat := 0x02

/-- `MsgType.HUB75_FRAG = 0x11`. -/
def HUB75_FRAG : Nat := 0x11

/-- `MsgType.OLED_FRAG = 0x13`. -/
def OLED_FRAG : Nat := 0x13

end MsgType

/-- Failure cases of the byte-level packing layer: `structError` models
Python's `struct.error` (raised by `pack` for an out-of-range field and by
`unpack` for a buffer whose size does not match the format), `notEnoughData`
the explicit `ValueError` of the `unpack` methods, `invalidFrameSize` the
`ValueError` of the fragment builders. -/
inductive PackError where
  | structError
  | notEnoughData
  | invalidFrameSize
deriving DecidableEq, Repr

/-- The extended packet header fields (Python class `PacketHeader`). -/
structure PacketHeader where
  sync1 : Nat
  sync2 : Nat
  sync3 : Nat
  msg_type : Nat
  payload_len : Nat
  frame_num : Nat
  frag_index : Nat
  frag_total : Nat
deriving DecidableEq, Repr

/-- `PacketHeader.SIZE = 10` — the size the source declares, although its
`pack` format `'<BBBHHHBB'` occupies 11 bytes. -/
def PacketHeader.SIZE : Nat := 10

/-- `PacketHeader.pack`: `struct.pack('<BBBHHHBB', sync1, sync2, sync3,
msg_type, payload_len, frame_num, frag_index, frag_total)`.  The format
packs `msg_type` with `H`, a two-byte little-endian field, so the result is
11 bytes; `struct.pack` raises `struct.error` for out-of-range fields. -/
def PacketHeader.pack (h : PacketHeader) : Except PackError (List Nat) :=
  if h.sync1 < 256 ∧ h.sync2 < 256 ∧ h.sync3 < 256 ∧ h.msg_type < 65536 ∧
      h.payload_len < 65536 ∧ h.frame_num < 65536 ∧
      h.frag_index < 256 ∧ h.frag_total < 256 then
    .ok [h.sync1, h.sync2, h.sync3,
      h.msg_type % 256, h.msg_type / 256,
      h.payload_len % 256, h.payload_len / 256,
      h.frame_num % 256, h.frame_num / 256,
      h.frag_index, h.frag_total]
  else .error .structError

/-- `PacketHeader.unpack`: after the `len(data) < SIZE` check it calls
`struct.unpack('<BBBHHHBB', data[:10])`; that format requires an 11-byte
buffer, so the call unconditionally raises `struct.error` — in the source
this function can never succeed. -/
def PacketHeader.unpack (data : List Nat) : Except PackError PacketHeader :=
  if data.length < PacketHeader.SIZE then .error .notEnoughData
  else .error .structError

/-- The 3-byte extended packet footer (Python class `PacketFooter`). -/
structure PacketFooter where
  checksum : Nat
  end_byte : Nat
deriving DecidableEq, Repr

/-- `PacketFooter.SIZE = 3`, consistent with its `'<HB'` format. -/
def PacketFooter.SIZE : Nat := 3

/-- `PacketFooter.pack`: `struct.pack('<HB', checksum, end_byte)`. -/
def PacketFooter.pack (f : PacketFooter) : Except PackError (List Nat) :=
  if f.checksum < 65536 ∧ f.end_byte < 256 then
    .ok [f.checksum % 256, f.checksum / 256, f.end_byte]
  else .error .structError

/-- `PacketFooter.unpack`: `struct.unpack('<HB', data[:3])` after the length
check. -/
def PacketFooter.unpack (data : List Nat) : Except PackError PacketFooter :=
  if data.length < PacketFooter.SIZE then .error .notEnoughData
  else .ok ⟨data.getD 0 0 + 256 * data.getD 1 0, data.getD 2 0⟩

/-- `calc_checksum(data)`: running byte sum masked to 16 bits. -/
def calc_checksum (data : List Nat) : Nat :=
  data.foldl (fun total b => total + b) 0 % 65536

/-- `build_packet(msg_type, payload, frame_num, frag_index, frag_total)`:
pack the header (11 bytes as `'<BBBHHHBB'` emits them), add the 16-bit
checksums of header bytes and payload bytes, pack the footer, and
concatenate. -/
def build_packet (msg_type : Nat) (payload : List Nat)
    (frame_num frag_index frag_total : Nat) : Except PackError (List Nat) :=
  match PacketHeader.pack ⟨SYNC_BYTE_1, SYNC_BYTE_2, SYNC_BYTE_3, msg_type,
      payload.length, frame_num, frag_index, frag_total⟩ with
  | .error e => .error e
  | .ok header_bytes =>
    match PacketFooter.pack ⟨(calc_checksum header_bytes + calc_checksum payload) % 65536,
        END_BYTE⟩ with
    | .error e => .error e
    | .ok footer_bytes => .ok (header_bytes ++ payload ++ footer_bytes)

/-- `build_hub75_fragment_packets(rgb_data, frame_num)`: checks the exact
frame size, then builds one `HUB75_FRAG` packet per 1024-byte slice. -/
def build_hub75_fragment_packets (rgb_data : List Nat) (frame_num : Nat) :
    Except PackError (List (List Nat)) :=
  if rgb_data.length ≠ HUB75_RGB_SIZE then .error .invalidFrameSize
  else (List.range HUB75_FRAGMENT_COUNT).mapM (fun i =>
    build_packet MsgType.HUB75_FRAG
      ((rgb_data.drop (i * FRAGMENT_SIZE)).take FRAGMENT_SIZE)
      frame_num i HUB75_FRAGMENT_COUNT)

/-- `build_oled_fragment_packets(mono_data, frame_num)`: checks the exact
frame size, then builds one `OLED_FRAG` packet per 1024-byte slice. -/
def build_oled_fragment_packets (mono_data : List Nat) (frame_num : Nat) :
    Except PackError (List (List Nat)) :=
  if mono_data.length ≠ OLED_MONO_SIZE then .error .invalidFrameSize
  else (List.range OLED_FRAGMENT_COUNT).mapM (fun i =>
    build_packet MsgType.OLED_FRAG
      ((mono_data.drop (i * FRAGMENT_SIZE)).take FRAGMENT_SIZE)
      frame_num i OLED_FRAGMENT_COUNT)

/-- The sync-seeking loop of `SerialInterface.receive_packet`: read a byte;
on `0xAA` read the next byte, on `0x55` read the next, on `0xCC` succeed.
A byte failing a comparison is consumed and the loop restarts at the byte
after it.  Returns the stream remaining after the full marker, or `none`
when the stream runs out (the Python timeout). -/
def seek_sync : List Nat → Option (List Nat)
  | [] => none
  | b1 :: rest =>
    if b1 = SYNC_BYTE_1 then
      match rest with
      | [] => none
      | b2 :: rest2 =>
        if b2 = SYNC_BYTE_2 then
          match rest2 with
          | [] => none
          | b3 :: rest3 =>
            if b3 = SYNC_BYTE_3 then some rest3
            else seek_sync rest3
        else seek_sync rest2
    else seek_sync rest

/-- `SerialInterface.receive_packet` over an explicit input stream: seek the
sync marker, read the remaining `SIZE - 3` header bytes, and hand the 10
collected bytes to `PacketHeader.unpack`.  In the source that unpack always
raises `struct.error`, which propagates uncaught — modelled as `.error`.
The continuation — reading the declared payload and 3-byte footer, comparing
the checksum, storing but never comparing the end byte — is dead code in the
source and is embedded after the unpack for completeness.  A `None` return
(timeout, short read, checksum mismatch) is `.ok none`; a delivered packet
would be `.ok (some ...)`. -/
def receive_packet (stream : List Nat) :
    Except PackError (Option (PacketHeader × List Nat × PacketFooter)) :=
  match seek_sync stream with
  | none => .ok none
  | some rest =>
    if rest.length < PacketHeader.SIZE - 3 then .ok none
    else
      match PacketHeader.unpack ([SYNC_BYTE_1, SYNC_BYTE_2, SYNC_BYTE_3] ++
          rest.take (PacketHeader.SIZE - 3)) with
      | .error e => .error e
      | .ok header =>
        if (rest.drop (PacketHeader.SIZE - 3)).length < header.payload_len then
          .ok none
        else
          if ((rest.drop (PacketHeader.SIZE - 3)).drop header.payload_len).length <
              PacketFooter.SIZE then .ok none
          else
            match PacketFooter.unpack (((rest.drop (PacketHeader.SIZE - 3)).drop
                header.payload_len).take PacketFooter.SIZE) with
            | .error e => .error e
            | .ok footer =>
              if footer.checksum ≠
                  (calc_checksum ([SYNC_BYTE_1, SYNC_BYTE_2, SYNC_BYTE_3] ++
                    rest.take (PacketHeader.SIZE - 3)) +
                   calc_checksum ((rest.drop (PacketHeader.SIZE - 3)).take
                    header.payload_len)) % 65536 then .ok none
              else .ok (some (header,
                (rest.drop (PacketHeader.SIZE - 3)).take header.payload_len,
                footer))

/-- The byte sum of the 11 emitted header bytes plus the payload, feeding
the extended checksum. -/
def buildSum (m : Nat) (p : List Nat) (fn fi ft : Nat) : Nat :=
  0xAA + 0x55 + 0xCC + m % 256 + m / 256 + p.length % 256 + p.length / 256 +
    fn % 256 + fn / 256 + fi + ft + p.foldl (fun total b => total + b) 0

/-- The bytes `build_packet` produces for in-range fields: an 11-byte header
with `msg_type` as a two-byte little-endian field, the payload, the 16-bit
truncated sum checksum and the end byte. -/
def buildBytes (m : Nat) (p : List Nat) (fn fi ft : Nat) : List Nat :=
  [0xAA, 0x55, 0xCC, m % 256, m / 256, p.length % 256, p.length / 256,
    fn % 256, fn / 256, fi, ft] ++ p ++
  [buildSum m p fn fi ft % 65536 % 256, buildSum m p fn fi ft % 65536 / 256, 0x55]

/-- For in-range fields, `build_packet` succeeds and produces exactly
`buildBytes`. -/
theorem build_packet_ok (m : Nat) (p : List Nat) (fn fi ft : Nat)
    (hm : m < 65536) (hp : p.length < 65536) (hfn : fn < 65536)
    (hfi : fi < 256) (hft : ft < 256) :
    build_packet m p fn fi ft = .ok (buildBytes m p fn fi ft) := by
  have hhdr : PacketHeader.pack ⟨SYNC_BYTE_1, SYNC_BYTE_2, SYNC_BYTE_3, m,
      p.length, fn, fi, ft⟩ = .ok [0xAA, 0x55, 0xCC, m % 256, m / 256,
        p.length % 256, p.length / 256, fn % 256, fn / 256, fi, ft] := by
    unfold PacketHeader.pack SYNC_BYTE_1 SYNC_BYTE_2 SYNC_BYTE_3
    dsimp only
    rw [if_pos]
    exact ⟨by omega, by omega, by omega, hm, hp, hfn, hfi, hft⟩
  have hsum : calc_checksum [0xAA, 0x55, 0xCC, m % 256, m / 256, p.length % 256,
      p.length / 256, fn % 256, fn / 256, fi, ft] + calc_checksum p =
      ((0xAA + 0x55 + 0xCC + m % 256 + m / 256 + p.length % 256 + p.length / 256 +
        fn % 256 + fn / 256 + fi + ft) % 65536) +
      (p.foldl (fun total b => total + b) 0 % 65536) := by
    unfold calc_checksum
    simp [List.foldl]
  have hftr : PacketFooter.pack ⟨(calc_checksum [0xAA, 0x55, 0xCC, m % 256, m / 256,
      p.length % 256, p.length / 256, fn % 256, fn / 256, fi, ft] +
      calc_checksum p) % 65536, END_BYTE⟩ =
      .ok [buildSum m p fn fi ft % 65536 % 256,
        buildSum m p fn fi ft % 65536 / 256, 0x55] := by
    unfold PacketFooter.pack END_BYTE
    dsimp only
    rw [if_pos (⟨by omega, by omega⟩)]
    rw [hsum]
    unfold buildSum
    simp only [List.cons.injEq, Except.ok.injEq, and_true]
    exact ⟨by omega, by omega⟩
  unfold build_packet
  rw [hhdr]
  dsimp only
  rw [hftr]
  unfold buildBytes
  rfl

/-- The 18 bytes `build_ping_packet(0x12345678)` actually produces: an
11-byte header with the `msg_type` high byte `0x00` at offset 4, the
little-endian timestamp payload, checksum `0x02E5` and end byte `0x55`. -/
def pingPacket : List Nat :=
  [0xAA, 0x55, 0xCC, 0x01, 0x00, 0x04, 0x00, 0x00, 0x00, 0x00, 0x01,
   0x78, 0x56, 0x34, 0x12, 0xE5, 0x02, 0x55]

/-- C3 (code bug): the code's own docstrings (`10-byte packet header`),
its `PacketHeader.SIZE = 10` and its tests describe the claimed 10-byte
`msgType:u8` header, but the format string `'<BBBHHHBB'` packs `msg_type`
as a two-byte field: at the PING input the built packet is 18 bytes with an
11-byte header whose offset-4 byte is the `msg_type` high byte `0x00`, the
packet is one byte longer than the code's own `SIZE`-based expectation, and
the code's own `unpack` rejects its own `pack` output. -/
theorem C3_extended_header_eleven_bytes :
    build_packet MsgType.PING [0x78, 0x56, 0x34, 0x12] 0 0 1 = .ok pingPacket ∧
    pingPacket.length = 18 ∧
    pingPacket.take 11 =
      [0xAA, 0x55, 0xCC, 0x01, 0x00, 0x04, 0x00, 0x00, 0x00, 0x00, 0x01] ∧
    pingPacket.length ≠ PacketHeader.SIZE + 4 + PacketFooter.SIZE ∧
    PacketHeader.unpack (pingPacket.take PacketHeader.SIZE) =
      .error .structError :=
  ⟨by rfl, by rfl, by rfl, by decide, by rfl⟩

/-- A `mapM` whose elements all succeed returns the list of results. -/
theorem mapM_ok_of_forall {β : Type} (f : Nat → Except PackError β)
    (g : Nat → β) (l : List Nat) (h : ∀ a ∈ l, f a = .ok (g a)) :
    l.mapM f = .ok (l.map g) := by
  induction l with
  | nil => rfl
  | cons a t ih =>
      rw [List.mapM_cons, h a (by simp), ih (fun x hx => h x (by simp [hx]))]
      rfl

/-- The bytes of the `i`-th HUB75 fragment packet. -/
def hub75_frag_bytes (rgb : List Nat) (fn i : Nat) : List Nat :=
  buildBytes MsgType.HUB75_FRAG ((rgb.drop (i * FRAGMENT_SIZE)).take FRAGMENT_SIZE)
    fn i HUB75_FRAGMENT_COUNT

/-- The bytes of the `i`-th OLED fragment packet. -/
def oled_frag_bytes (mono : List Nat) (fn i : Nat) : List Nat :=
  buildBytes MsgType.OLED_FRAG ((mono.drop (i * FRAGMENT_SIZE)).take FRAGMENT_SIZE)
    fn i OLED_FRAGMENT_COUNT

/-- The message type stored in a built packet, at bytes 3-4 (LE) of the
header `'<BBBHHHBB'` emits. -/
def packet_msg_type (pkt : List Nat) : Nat :=
  pkt.getD 3 0 + 256 * pkt.getD 4 0

/-- The payload length stored in a built packet, at bytes 5-6 (LE) of the
header `'<BBBHHHBB'` emits. -/
def packet_payload_len (pkt : List Nat) : Nat :=
  pkt.getD 5 0 + 256 * pkt.getD 6 0

/-- The frame number stored in a built packet, at bytes 7-8 (LE) of the
header `'<BBBHHHBB'` emits. -/
def packet_frame_num (pkt : List Nat) : Nat :=
  pkt.getD 7 0 + 256 * pkt.getD 8 0

/-- The fragment index stored in a built packet, at byte 9 of the header
`'<BBBHHHBB'` emits. -/
def packet_frag_index (pkt : List Nat) : Nat :=
  pkt.getD 9 0

/-- The fragment total stored in a built packet, at byte 10 of the header
`'<BBBHHHBB'` emits. -/
def packet_frag_total (pkt : List Nat) : Nat :=
  pkt.getD 10 0

/-- Reading the header fields and the payload region back out of
`buildBytes`. -/
theorem packet_fields_buildBytes (m : Nat) (p : List Nat) (fn fi ft : Nat) :
    packet_msg_type (buildBytes m p fn fi ft) = m % 256 + 256 * (m / 256) ∧
    packet_payload_len (buildBytes m p fn fi ft) =
      p.length % 256 + 256 * (p.length / 256) ∧
    packet_frame_num (buildBytes m p fn fi ft) = fn % 256 + 256 * (fn / 256) ∧
    packet_frag_index (buildBytes m p fn fi ft) = fi ∧
    packet_frag_total (buildBytes m p fn fi ft) = ft ∧
    (buildBytes m p fn fi ft).drop 11 =
      p ++ [buildSum m p fn fi ft % 65536 % 256,
        buildSum m p fn fi ft % 65536 / 256, 0x55] :=
  ⟨rfl, rfl, rfl, rfl, rfl, rfl⟩

/-- C5: Fragmenting a 12288-byte HUB75 frame yields exactly 12 packets in
increasing fragment-index order 0..11, each declaring payload length 1024,
fragment total 12 and the given frame number and carrying the matching
1024-byte slice of the frame as payload, with the declared payload lengths
summing to 12288; a 2048-byte OLED frame yields exactly 2 fragments. -/
theorem C5_fragmentation (rgb : List Nat) (fn : Nat)
    (hrgb : rgb.length = HUB75_RGB_SIZE) (hfn : fn < 65536) :
    ∃ pkts, build_hub75_fragment_packets rgb fn = .ok pkts ∧
      pkts.length = 12 ∧
      (∀ i (hi : i < pkts.length),
        packet_msg_type pkts[i] = MsgType.HUB75_FRAG ∧
        packet_payload_len pkts[i] = 1024 ∧
        packet_frag_index pkts[i] = i ∧
        packet_frag_total pkts[i] = 12 ∧
        packet_frame_num pkts[i] = fn ∧
        (pkts[i].drop 11).take FRAGMENT_SIZE =
          (rgb.drop (i * FRAGMENT_SIZE)).take FRAGMENT_SIZE) ∧
      (pkts.map packet_payload_len).sum = HUB75_RGB_SIZE ∧
      (∀ mono : List Nat, mono.length = OLED_MONO_SIZE →
        ∃ pkts2, build_oled_fragment_packets mono fn = .ok pkts2 ∧
          pkts2.length = 2) := by
  have hl : ∀ i, i < 12 →
      ((rgb.drop (i * FRAGMENT_SIZE)).take FRAGMENT_SIZE).length = 1024 := by
    intro i hi
    unfold FRAGMENT_SIZE
    unfold HUB75_RGB_SIZE at hrgb
    simp [hrgb]
    omega
  have hmapM : (List.range HUB75_FRAGMENT_COUNT).mapM (fun i =>
      build_packet MsgType.HUB75_FRAG
        ((rgb.drop (i * FRAGMENT_SIZE)).take FRAGMENT_SIZE)
        fn i HUB75_FRAGMENT_COUNT) =
      .ok ((List.range 12).map (hub75_frag_bytes rgb fn)) := by
    unfold HUB75_FRAGMENT_COUNT
    refine mapM_ok_of_forall _ _ _ ?_
    intro a ha
    have ha12 : a < 12 := List.mem_range.mp ha
    unfold hub75_frag_bytes HUB75_FRAGMENT_COUNT
    exact build_packet_ok _ _ _ _ _ (by unfold MsgType.HUB75_FRAG; omega)
      (by rw [hl a ha12]; omega) hfn (by omega) (by omega)
  have hbuild : build_hub75_fragment_packets rgb fn =
      .ok ((List.range 12).map (hub75_frag_bytes rgb fn)) := by
    unfold build_hub75_fragment_packets
    rw [if_neg (by simp [hrgb])]
    exact hmapM
  refine ⟨(List.range 12).map (hub75_frag_bytes rgb fn), hbuild, by simp, ?_, ?_, ?_⟩
  · intro i hi
    have hi12 : i < 12 := by simpa using hi
    have hpk : ((List.range 12).map (hub75_frag_bytes rgb fn))[i] =
        hub75_frag_bytes rgb fn i := by
      simp
    rw [hpk]
    unfold hub75_frag_bytes
    obtain ⟨f1, f2, f3, f4, f5, f6⟩ := packet_fields_buildBytes MsgType.HUB75_FRAG
      ((rgb.drop (i * FRAGMENT_SIZE)).take FRAGMENT_SIZE) fn i HUB75_FRAGMENT_COUNT
    refine ⟨?_, ?_, ?_, ?_, ?_, ?_⟩
    · rw [f1]
      decide
    · rw [f2, hl i hi12]
    · exact f4
    · rw [f5]
      rfl
    · rw [f3]
      omega
    · rw [f6]
      exact List.take_left' (by rw [hl i hi12]; rfl)
  · have hupl : ∀ a ∈ List.range 12,
        (packet_payload_len ∘ hub75_frag_bytes rgb fn) a = 1024 := by
      intro a ha
      have ha12 : a < 12 := List.mem_range.mp ha
      unfold Function.comp hub75_frag_bytes
      rw [(packet_fields_buildBytes MsgType.HUB75_FRAG _ fn a
        HUB75_FRAGMENT_COUNT).2.1, hl a ha12]
    rw [List.map_map]
    rw [List.map_congr_left hupl]
    rfl
  · intro mono hmono
    have hl2 : ∀ i, i < 2 →
        ((mono.drop (i * FRAGMENT_SIZE)).take FRAGMENT_SIZE).length = 1024 := by
      intro i hi
      unfold FRAGMENT_SIZE
      unfold OLED_MONO_SIZE at hmono
      simp [hmono]
      omega
    have hmapM2 : (List.range OLED_FRAGMENT_COUNT).mapM (fun i =>
        build_packet MsgType.OLED_FRAG
          ((mono.drop (i * FRAGMENT_SIZE)).take FRAGMENT_SIZE)
          fn i OLED_FRAGMENT_COUNT) =
        .ok ((List.range 2).map (oled_frag_bytes mono fn)) := by
      unfold OLED_FRAGMENT_COUNT
      refine mapM_ok_of_forall _ _ _ ?_
      intro a ha
      have ha2 : a < 2 := List.mem_range.mp ha
      unfold oled_frag_bytes OLED_FRAGMENT_COUNT
      exact build_packet_ok _ _ _ _ _ (by unfold MsgType.OLED_FRAG; omega)
        (by rw [hl2 a ha2]; omega) hfn (by omega) (by omega)
    refine ⟨(List.range 2).map (oled_frag_bytes mono fn), ?_, by simp⟩
    unfold build_oled_fragment_packets
    rw [if_neg (by simp [hmono])]
    exact hmapM2

/-- Concrete instantiation of the C5 fragmentation law. -/
theorem C5_fragmentation_witness :
    ∃ pkts, build_hub75_fragment_packets (List.replicate 12288 0) 1 = .ok pkts ∧
      pkts.length = 12 ∧
      (∀ i (hi : i < pkts.length),
        packet_msg_type pkts[i] = MsgType.HUB75_FRAG ∧
        packet_payload_len pkts[i] = 1024 ∧
        packet_frag_index pkts[i] = i ∧
        packet_frag_total pkts[i] = 12 ∧
        packet_frame_num pkts[i] = 1 ∧
        (pkts[i].drop 11).take FRAGMENT_SIZE =
          ((List.replicate 12288 0).drop (i * FRAGMENT_SIZE)).take FRAGMENT_SIZE) ∧
      (pkts.map packet_payload_len).sum = HUB75_RGB_SIZE ∧
      (∀ mono : List Nat, mono.length = OLED_MONO_SIZE →
        ∃ pkts2, build_oled_fragment_packets mono 1 = .ok pkts2 ∧
          pkts2.length = 2) :=
  C5_fragmentation (List.replicate 12288 0) 1
    (by rw [List.length_replicate]; rfl) (by omega)

/-- C6 counterexample: `pingPacket` is exactly what `build_packet` produces
for the PING input, yet prefixing the single stray byte `0xAA` — so the
stream reads `AA AA 55 CC ...` — makes the seek loop consume the mismatching
second byte, never find the overlapping sync marker, and return `None`: the
packet is not decoded, contradicting the claimed scenario. -/
theorem C6_counterexample :
    build_packet MsgType.PING [0x78, 0x56, 0x34, 0x12] 0 0 1 = .ok pingPacket ∧
    seek_sync (0xAA :: pingPacket) = none ∧
    receive_packet (0xAA :: pingPacket) = .ok none :=
  ⟨by rfl, by rfl, by rfl⟩

/-- C6 (amended): after a partial sync match a mismatching byte is consumed
and the search restarts at the byte after it — not at the mismatching byte
itself — so a sync marker overlapping the failed partial match is lost: the
stream `0xAA` followed by a valid packet (which begins `AA 55 CC`) yields
`None`.  Moreover no stream is ever decoded into a packet: once the marker
is matched, the header unpack (a 10-byte slice against the 11-byte
`'<BBBHHHBB'` format) raises `struct.error`, as on `pingPacket` itself. -/
theorem C6_sync_seek_behavior :
    (∀ b rest, b ≠ SYNC_BYTE_2 →
      seek_sync (SYNC_BYTE_1 :: b :: rest) = seek_sync rest) ∧
    receive_packet (0xAA :: pingPacket) = .ok none ∧
    receive_packet pingPacket = .error .structError := by
  refine ⟨?_, by rfl, by rfl⟩
  intro b rest hb
  unfold SYNC_BYTE_2 at hb
  rw [seek_sync.eq_def]
  simp [SYNC_BYTE_1, SYNC_BYTE_2, hb]

/-- Concrete instantiation of the amended C6 statement. -/
theorem C6_sync_seek_behavior_witness :
    seek_sync (SYNC_BYTE_1 :: 0xAA :: [0x99]) = seek_sync [0x99] :=
  C6_sync_seek_behavior.1 0xAA [0x99] (by decide)

/-- The `pingPacket` bytes with the end-marker byte replaced by `0x00`. -/
def pingPacketBadEnd : List Nat :=
  [0xAA, 0x55, 0xCC, 0x01, 0x00, 0x04, 0x00, 0x00, 0x00, 0x00, 0x01,
   0x78, 0x56, 0x34, 0x12, 0xE5, 0x02, 0x00]

/-- C7 counterexample: there is no distinct bad-end-marker failure: with a
wrong trailing byte reception fails with the same `struct.error` the header
unpack raises on the intact packet, before the footer — or the end byte —
is ever read, and no packet is ever delivered. -/
theorem C7_counterexample :
    pingPacketBadEnd.getD 17 0 ≠ END_BYTE ∧
    receive_packet pingPacketBadEnd = .error .structError ∧
    receive_packet pingPacket = .error .structError :=
  ⟨by decide, by rfl, by rfl⟩

/-- C7 (amended): the extended-form receiver validates no end marker and in
fact never delivers any packet: for every value of the trailing byte
(`0x55` included), reception fails with the `struct.error` raised by the
header unpack before the payload, footer or end byte are read. -/
theorem C7_end_marker_ignored (e : Nat) (he : e < 256) :
    receive_packet ([0xAA, 0x55, 0xCC, 0x01, 0x00, 0x04, 0x00, 0x00, 0x00,
        0x00, 0x01, 0x78, 0x56, 0x34, 0x12, 0xE5, 0x02] ++ [e]) =
      .error .structError := by
  rfl

/-- Concrete instantiation of the amended C7 statement. -/
theorem C7_end_marker_ignored_witness :
    receive_packet ([0xAA, 0x55, 0xCC, 0x01, 0x00, 0x04, 0x00, 0x00, 0x00,
        0x00, 0x01, 0x78, 0x56, 0x34, 0x12, 0xE5, 0x02] ++ [0x00]) =
      .error .structError :=
  C7_end_marker_ignored 0x00 (by omega)

/-- C8 counterexample: a 1025-byte payload exceeds the 1024-byte fragment
size, yet the extended-form `build_packet` succeeds on it — there is no
payload-size check in the extended encoder. -/
theorem C8_counterexample :
    FRAGMENT_SIZE < (List.replicate 1025 (0 : Nat)).length ∧
    build_packet MsgType.PING (List.replicate 1025 0) 0 0 1 =
      .ok (buildBytes MsgType.PING (List.replicate 1025 0) 0 0 1) :=
  ⟨by rw [List.length_replicate]; decide,
   build_packet_ok _ _ _ _ _ (by decide)
     (by rw [List.length_replicate]; omega) (by omega) (by omega) (by omega)⟩

/-- C8 (amended): the short-form `encode` fails with `payloadTooLarge`
exactly when the payload exceeds 255 bytes (and, being a pure function,
affects nothing else); the extended-form `build_packet` has no
fragment-size check: it succeeds on payloads larger than `FRAGMENT_SIZE`,
such as 1025 bytes — only the u16 range of the packed length field bounds
the payload. -/
theorem C8_payload_too_large :
    (∀ cmd p, UartPacket.encode cmd p = .error .payloadTooLarge ↔
      255 < p.length) ∧
    (∃ bs, build_packet MsgType.PING (List.replicate 1025 0) 0 0 1 = .ok bs) := by
  constructor
  · intro cmd p
    unfold UartPacket.encode UartPacket.MAX_PAYLOAD
    split_ifs with h
    · simp
      omega
    · simp
      omega
  · exact ⟨_, build_packet_ok _ _ _ _ _ (by decide)
      (by rw [List.length_replicate]; omega) (by omega) (by omega) (by omega)⟩

end Extended

end SynthHead
